import Mathlib

/-
Verification of the feature-engineering and aggregation core of the
urban-mobility-behavior pipeline.  Every definition is a shallow embedding of a
function of the repository sources:

  - src/modeling/feature_engineering.py : build_od_flows, build_gps_speed_features
  - src/modeling/data_preprocessor.py   : create_time_features,
                                          create_lag_and_rolling_features,
                                          create_od_prediction_features
  - src/modeling/anomaly_detector.py    : detect_hourly_demand_anomalies,
                                          detect_gps_speed_anomalies

Dataframes are modelled as lists of rows (records), timestamps as minutes since
the Unix epoch (Nat), and float-valued columns as rationals.  A pandas groupby
over k key columns is modelled by sorting the distinct keys (pandas groupby
sorts group keys ascending) and aggregating the rows of each key.
-/

namespace UMB

/-- Minute offset of the Asia/Kolkata timezone over UTC (+05:30, no DST). -/
def kolkataOffset : Nat := 330

/-- Embeds the timestamp preparation of both aggregators
(pd.to_datetime(..., utc=True).dt.tz_convert("Asia/Kolkata")): a UTC timestamp
in minutes since the epoch becomes local wall-clock minutes. -/
def toLocalMinutes (t : Nat) : Nat := t + kolkataOffset

/-- Embeds Series.dt.floor("h") on a timestamp in minutes. -/
def floorHourMinutes (m : Nat) : Nat := m / 60 * 60

/-- Hour bucket assigned to an event by both aggregators: convert the UTC
timestamp to Asia/Kolkata, then floor to the hour
(feature_engineering.py lines 25/42 and 72/75). -/
def hourBucket (t : Nat) : Nat := floorHourMinutes (toLocalMinutes t)

/-! ### build_od_flows (feature_engineering.py) -/

/-- Row of data/processed/cdr_merged.parquet as consumed by build_od_flows.
The upstream cleaning stage (transform.py) drops rows with a null tower_id, so
tower_id is modelled as always present.  The timestamp is UTC minutes. -/
structure CDRRow where
  user_id : String
  tower_id : String
  timestamp : Nat
deriving DecidableEq, Repr

/-- Lexicographic comparison on two sort columns, the order pandas sort_values
and groupby use for a two-column key. -/
def lex2 {α β : Type} [LinearOrder α] [LinearOrder β] (x y : α × β) : Bool :=
  if x.1 = y.1 then decide (x.2 ≤ y.2) else decide (x.1 < y.1)

/-- Lexicographic comparison on three sort columns. -/
def lex3 {α β γ : Type} [LinearOrder α] [LinearOrder β] [LinearOrder γ]
    (x y : α × β × γ) : Bool :=
  if x.1 = y.1 then lex2 x.2 y.2 else decide (x.1 < y.1)

/-- Comparison used by df.sort_values(["user_id", "timestamp"]).  String
columns compare lexicographically; the comparison is expressed on the
character lists underlying the strings (the same order as String.lt). -/
def cdrLE (a b : CDRRow) : Bool :=
  lex2 (a.user_id.data, a.timestamp) (b.user_id.data, b.timestamp)

/-- Embeds df.sort_values(["user_id", "timestamp"]).  Insertion sort is a
stable sort, one legitimate realisation of the sort the source requests. -/
def sortCDR (df : List CDRRow) : List CDRRow :=
  df.insertionSort fun a b => cdrLE a b = true

/-- Embeds df.groupby("user_id")["tower_id"].shift(): each row is paired with
the tower of the most recent earlier row of the same user in frame order, and
with none for a user's first row.  The accumulator keeps, per user, the tower
of the last row already traversed (most recent entry first). -/
def addOrigins (seen : List (String × String)) :
    List CDRRow → List (CDRRow × Option String)
  | [] => []
  | r :: rs =>
      (r, seen.lookup r.user_id) :: addOrigins ((r.user_id, r.tower_id) :: seen) rs

/-- Characterisation device for the per-entity shift: pair each event of one
entity's chronological event list with the tower of the immediately preceding
event of that list (prev for the first event). -/
def chainPrev (prev : Option String) : List CDRRow → List (CDRRow × Option String)
  | [] => []
  | r :: rs => (r, prev) :: chainPrev (some r.tower_id) rs

/-- One un-aggregated flow record: the (hour, origin_tower, dest_tower)
key triple of a CDR row that survived dropna(subset=["origin_tower"]). -/
structure FlowRec where
  hour : Nat
  origin : String
  dest : String
deriving DecidableEq, Repr

/-- Flow records of build_od_flows before the final groupby: sort, per-user
shift to obtain origin_tower, dropna on origin_tower, and bucket each
surviving row by the hour of its own (current) timestamp. -/
def flowRecords (df : List CDRRow) : List FlowRec :=
  (addOrigins [] (sortCDR df)).filterMap fun p =>
    p.2.map fun o => ⟨hourBucket p.1.timestamp, o, p.1.tower_id⟩

/-- Row of od_flows.parquet. -/
structure ODRow where
  hour : Nat
  origin : String
  dest : String
  count : Nat
deriving DecidableEq, Repr

/-- Ascending order on the groupby keys of
df.groupby(["hour", "origin_tower", "dest_tower"]): pandas sorts group keys
lexicographically in column order, hour first. -/
def flowKeyLE (a b : FlowRec) : Bool :=
  lex3 (a.hour, a.origin.data, a.dest.data) (b.hour, b.origin.data, b.dest.data)

/-- Embeds build_od_flows (the pure part, after loading cdr_merged.parquet):
one output row per distinct (hour, origin, dest) key, holding the number of
flow records with that key, keys in ascending order. -/
def buildOdFlows (df : List CDRRow) : List ODRow :=
  let fl := flowRecords df
  ((fl.dedup.insertionSort fun a b => flowKeyLE a b = true).map
    fun k => ⟨k.hour, k.origin, k.dest, fl.count k⟩)

/-- Ordering asserted by the spec for the OD-flow output, stated from the
spec text (key then time): rows sorted by group key first (origin, then
dest), then by time bucket. -/
def specOrderedKeyThenTimeOD (l : List ODRow) : Prop :=
  l.Pairwise fun a b =>
    a.origin < b.origin ∨ (a.origin = b.origin ∧
      (a.dest < b.dest ∨ (a.dest = b.dest ∧ a.hour ≤ b.hour)))

/-! ### build_gps_speed_features (feature_engineering.py) -/

/-- Row of data/processed/gps_merged.parquet as consumed by
build_gps_speed_features.  Coordinates and speed are floats, modelled as
rationals; the timestamp is UTC minutes. -/
structure GPSRow where
  device_id : String
  latitude : ℚ
  longitude : ℚ
  timestamp : Nat
  speed_kmph : ℚ
deriving DecidableEq, Repr

/-- Embeds Series.round(2) as the integer of hundredths: the rounded
coordinate q.round(2) is modelled by the integer round(q * 100), so a grid
coordinate is carried scaled by 100.  (The source then renders the two rounded
floats as decimal strings joined by an underscore to form grid_id; the
rendering is injective in the pair, so grouping by grid_id is grouping by this
pair.) -/
def round2 (q : ℚ) : ℤ := round (q * 100)

/-- Groupby key of build_gps_speed_features: hour bucket plus the grid cell. -/
structure GpsKey where
  hour : Nat
  gridLat : ℤ
  gridLon : ℤ
deriving DecidableEq, Repr

/-- Row of gps_speed_features.parquet: one grid cell and hour, with the mean
speed of its points. -/
structure GridSpeedRow where
  hour : Nat
  gridLat : ℤ
  gridLon : ℤ
  avg_speed_kmph : ℚ
deriving DecidableEq, Repr

/-- Ascending order on the keys of df.groupby(["hour", "grid_id"]), hour
first.  Within an hour the source orders grid cells by their rendered string;
we order by the underlying coordinate pair, which the string determines. -/
def gpsKeyLE (a b : GpsKey) : Bool :=
  lex3 (a.hour, a.gridLat, a.gridLon) (b.hour, b.gridLat, b.gridLon)

/-- Key triple of one GPS point after hour bucketing and coordinate
rounding. -/
def gpsPointKey (r : GPSRow) : GpsKey :=
  ⟨hourBucket r.timestamp, round2 r.latitude, round2 r.longitude⟩

/-- Embeds build_gps_speed_features (the pure part): mean speed_kmph per
(hour, grid cell) key, one row per distinct key, keys ascending. -/
def buildGpsSpeedFeatures (df : List GPSRow) : List GridSpeedRow :=
  let keys := df.map gpsPointKey
  (keys.dedup.insertionSort fun a b => gpsKeyLE a b = true).map fun k =>
    let vals := (df.filter fun r => gpsPointKey r = k).map (·.speed_kmph)
    ⟨k.hour, k.gridLat, k.gridLon, vals.sum / vals.length⟩

/-! ### create_lag_and_rolling_features (data_preprocessor.py)

The python function is generic in its column parameters (group_cols, time_col,
target_col); the embedding is correspondingly generic in a row type R, a group
key projection, a time projection and a target projection. -/

section LagRolling

variable {R K : Type} [DecidableEq K]

/-- Comparison used by df.sort_values(by=group_cols + [time_col]): group key
first, time within equal keys. -/
def rowLE (keyLE : K → K → Bool) (key : R → K) (time : R → Nat) (a b : R) : Bool :=
  if key a = key b then decide (time a ≤ time b) else keyLE (key a) (key b)

/-- Series of the target column of one group, in frame order: the series that
df.groupby(group_cols)[target_col] hands to shift and to the rolling
transforms for that group. -/
def groupSeries (key : R → K) (target : R → ℚ) (s : List R) (k : K) : List ℚ :=
  (s.filter fun x => key x = k).map target

/-- Position of row j inside its group series: the number of earlier frame
rows in the same group. -/
def groupPos (key : R → K) (s : List R) (j : Nat) (k : K) : Nat :=
  ((s.take j).filter fun x => key x = k).length

/-- Embeds a groupby transform: split the frame into per-group series, apply f
to each group series, and give row j the component of its group at the row's
within-group position (how pandas re-aligns per-group results to the frame). -/
def groupTransform (f : List ℚ → List (Option ℚ)) (key : R → K) (target : R → ℚ)
    (s : List R) : List (Option ℚ) :=
  (List.range s.length).map fun j =>
    match s[j]? with
    | none => none
    | some r => ((f (groupSeries key target s (key r)))[groupPos key s j (key r)]?).join

/-- Embeds Series.shift(L): L undefined cells, then the values shifted down by
L with the tail truncated to the original length. -/
def seriesShift (L : Nat) (xs : List ℚ) : List (Option ℚ) :=
  (List.replicate L none ++ xs.map some).take xs.length

/-- Trailing window of Series.rolling(window=W) at position i: the at most W
elements ending at and including position i. -/
def rollWin (W : Nat) (xs : List ℚ) (i : Nat) : List ℚ :=
  (xs.take (i + 1)).drop (i + 1 - W)

/-- The trailing window of position i written back to front: the at most W
most recent values ending at and including position i, restored to
chronological order.  Equal to rollWin; used to state the rolling claims the
way the spec words them. -/
def trailingWin (W : Nat) (xs : List ℚ) (i : Nat) : List ℚ :=
  ((xs.take (i + 1)).reverse.take W).reverse

/-- Embeds Series.rolling(window=W, min_periods=1).mean(): the arithmetic mean
of the trailing window, undefined only when the window holds no observation
(impossible at a frame position, kept for faithfulness to min_periods). -/
def rollingMeanSeries (W : Nat) (xs : List ℚ) : List (Option ℚ) :=
  (List.range xs.length).map fun i =>
    if 1 ≤ (rollWin W xs i).length then
      some ((rollWin W xs i).sum / ((rollWin W xs i).length : ℚ))
    else none

/-- Sample variance (ddof=1) of a list, the square of the standard deviation
Series.rolling(...).std() computes. -/
def sampleVar (l : List ℚ) : ℚ :=
  (l.map fun x => (x - l.sum / (l.length : ℚ)) ^ 2).sum / ((l.length : ℚ) - 1)

/-- Embeds Series.rolling(window=W, min_periods=1).std(): undefined on windows
of fewer than two observations (ddof=1), defined otherwise.  The defined value
is modelled by the sample variance; the source takes its square root, which
changes neither definedness nor the fill logic, and no claim refers to the
numeric value of the std column. -/
def rollingStdSeries (W : Nat) (xs : List ℚ) : List (Option ℚ) :=
  (List.range xs.length).map fun i =>
    if 2 ≤ (rollWin W xs i).length then some (sampleVar (rollWin W xs i))
    else none

/-- Column df.groupby(group_cols)[target_col].shift(L) over frame s. -/
def lagColumn (key : R → K) (target : R → ℚ) (L : Nat) (s : List R) : List (Option ℚ) :=
  groupTransform (seriesShift L) key target s

/-- Column of the rolling mean transform over frame s. -/
def rollMeanColumn (key : R → K) (target : R → ℚ) (W : Nat) (s : List R) :
    List (Option ℚ) :=
  groupTransform (rollingMeanSeries W) key target s

/-- Column of the rolling std transform over frame s. -/
def rollStdColumn (key : R → K) (target : R → ℚ) (W : Nat) (s : List R) :
    List (Option ℚ) :=
  groupTransform (rollingStdSeries W) key target s

/-- Embeds df.groupby(group_cols)[col].ffill(): cell j becomes the most recent
defined value at a position at most j within the same group (its own value
when defined). -/
def groupedFfill (l : List (K × Option ℚ)) : List (Option ℚ) :=
  (List.range l.length).map fun j =>
    match l[j]? with
    | none => none
    | some p => ((l.take (j + 1)).filter fun q => q.1 = p.1).reverse.findSome? (·.2)

/-- Embeds Series.bfill() applied to the result of the grouped ffill.  Note
that in the source the bfill is chained onto the Series returned by the
grouped ffill, so it runs over the whole frame and ignores group boundaries:
cell j becomes the nearest defined value at a position at least j in the
frame, whatever its group. -/
def globalBfill (v : List (Option ℚ)) : List (Option ℚ) :=
  (List.range v.length).map fun j => (v.drop j).findSome? id

/-- Embeds Series.fillna(0). -/
def fillna0 (v : List (Option ℚ)) : List ℚ := v.map fun o => o.getD 0

/-- The three-step fill applied to each lag/rolling column:
df.groupby(group_cols)[col].ffill().bfill() then .fillna(0). -/
def fillColumn (keys : List K) (v : List (Option ℚ)) : List ℚ :=
  fillna0 (globalBfill (groupedFfill (keys.zip v)))

/-- Feature values attached to one row by create_lag_and_rolling_features:
the filled lag columns (one per requested lag) and the filled rolling mean and
std columns (one per requested window size). -/
structure FeatVals where
  lagF : List ℚ
  rollMeanF : List ℚ
  rollStdF : List ℚ
deriving DecidableEq, Repr

/-- Embeds create_lag_and_rolling_features: sort by group key then time,
compute the per-group lag and rolling columns, fill each feature column
(grouped ffill, then the frame-wide bfill of the source, then fillna(0)), and
return each row of the sorted frame with its feature values. -/
def createLagAndRollingFeatures (keyLE : K → K → Bool) (key : R → K)
    (time : R → Nat) (target : R → ℚ) (lags windows : List Nat) (df : List R) :
    List (R × FeatVals) :=
  let s := df.insertionSort fun a b => rowLE keyLE key time a b = true
  let ks := s.map key
  let lagCols := lags.map fun L => fillColumn ks (lagColumn key target L s)
  let meanCols := windows.map fun W => fillColumn ks (rollMeanColumn key target W s)
  let stdCols := windows.map fun W => fillColumn ks (rollStdColumn key target W s)
  s.mapIdx fun j r =>
    (r, ⟨lagCols.map fun c => c.getD j 0,
         meanCols.map fun c => c.getD j 0,
         stdCols.map fun c => c.getD j 0⟩)

end LagRolling

/-! ### create_time_features (data_preprocessor.py)

The hour column values handed to create_time_features are Asia/Kolkata local
timestamps; the embedding takes local minutes since 1970-01-01 00:00.  The
pandas datetime accessors are embedded with the standard civil-calendar
algorithms. -/

/-- Embeds Series.dt.hour. -/
def hourOfDay (m : Nat) : Nat := m / 60 % 24

/-- Embeds Series.dt.dayofweek (Monday = 0).  1970-01-01 was a Thursday,
day-of-week 3. -/
def dayOfWeek (m : Nat) : Nat := (m / 1440 + 3) % 7

/-- Civil date (year, month, day) of a day count since 1970-01-01, by the
standard era-based Gregorian algorithm; embeds the calendar underlying the
pandas dt accessors. -/
def civilDate (days : Nat) : Nat × Nat × Nat :=
  let z := days + 719468
  let era := z / 146097
  let doe := z % 146097
  let yoe := (doe - doe / 1460 + doe / 36524 - doe / 146096) / 365
  let y := yoe + era * 400
  let doy := doe - (365 * yoe + yoe / 4 - yoe / 100)
  let mp := (5 * doy + 2) / 153
  let d := doy - (153 * mp + 2) / 5 + 1
  let mo := if mp < 10 then mp + 3 else mp - 9
  (if mo ≤ 2 then y + 1 else y, mo, d)

/-- Gregorian leap-year test. -/
def isLeap (y : Nat) : Bool :=
  y % 4 = 0 && (y % 100 ≠ 0 || y % 400 = 0)

/-- Days in the months before month mo (1-based) of a year. -/
def daysBeforeMonth (leap : Bool) (mo : Nat) : Nat :=
  [0, 31, 59, 90, 120, 151, 181, 212, 243, 273, 304, 334].getD (mo - 1) 0 +
    if leap && 3 ≤ mo then 1 else 0

/-- Embeds Series.dt.month. -/
def monthOf (m : Nat) : Nat := (civilDate (m / 1440)).2.1

/-- Embeds Series.dt.dayofyear (1-based ordinal day in the year). -/
def dayOfYear (m : Nat) : Nat :=
  let c := civilDate (m / 1440)
  daysBeforeMonth (isLeap c.1) c.2.1 + c.2.2

/-- Day of week of 31 December of year y, with Thursday = 4; helper of the ISO
week-count rule. -/
def isoP (y : Nat) : Nat := (y + y / 4 - y / 100 + y / 400) % 7

/-- Number of ISO weeks in year y (52 or 53). -/
def isoWeeksInYear (y : Nat) : Nat :=
  if isoP y = 4 || isoP (y - 1) = 3 then 53 else 52

/-- Embeds Series.dt.isocalendar().week: the ISO 8601 week number. -/
def weekOfYear (m : Nat) : Nat :=
  let y := (civilDate (m / 1440)).1
  let w := (dayOfYear m + 10 - (dayOfWeek m + 1)) / 7
  if w < 1 then isoWeeksInYear (y - 1)
  else if isoWeeksInYear y < w then 1 else w

/-- Columns appended by create_time_features, one field per appended column in
source order.  is_weekend is the 0/1 integer of (day_of_week >= 5).astype(int)
and the four cyclical columns are the numpy sine/cosine values, modelled over
the reals. -/
structure TimeFeats where
  hour_of_day : Nat
  day_of_week : Nat
  day_of_year : Nat
  month : Nat
  week_of_year : Nat
  is_weekend : Nat
  hour_sin : ℝ
  hour_cos : ℝ
  dayofweek_sin : ℝ
  dayofweek_cos : ℝ

/-- Embeds create_time_features on one row carrying the local timestamp m (in
minutes): the ten appended columns, each a function of m alone. -/
noncomputable def createTimeFeatures (m : Nat) : TimeFeats where
  hour_of_day := hourOfDay m
  day_of_week := dayOfWeek m
  day_of_year := dayOfYear m
  month := monthOf m
  week_of_year := weekOfYear m
  is_weekend := if 5 ≤ dayOfWeek m then 1 else 0
  hour_sin := Real.sin (2 * Real.pi * (hourOfDay m : ℝ) / 24)
  hour_cos := Real.cos (2 * Real.pi * (hourOfDay m : ℝ) / 24)
  dayofweek_sin := Real.sin (2 * Real.pi * (dayOfWeek m : ℝ) / 7)
  dayofweek_cos := Real.cos (2 * Real.pi * (dayOfWeek m : ℝ) / 7)

/-! ### anomaly_detector.py

The IsolationForest of scikit-learn is external to the repository; its
fit_predict method is modelled as a parameter fp mapping the list of feature
rows to one predicted label per row (the sklearn contract: +1 inlier, -1
outlier; the source comment on the hourly detector records the same reading).
Both detectors are embedded at column level so that the set of output columns
is part of the model: a dataframe is a list of named columns. -/

/-- One dataframe cell. -/
inductive CellVal where
  | nat (n : Nat)
  | int (z : ℤ)
  | rat (q : ℚ)
  | str (s : String)
  | bool (b : Bool)
deriving DecidableEq, Repr

/-- A named dataframe column. -/
abbrev DfCol := String × List CellVal

/-- Hourly total demand: od.groupby("hour")["count"].sum() followed by
sort_values("hour") (groupby already emits hours ascending). -/
def hourlyDemand (od : List ODRow) : List (Nat × Nat) :=
  (((od.map (·.hour)).dedup).insertionSort fun a b => a ≤ b).map fun h =>
    (h, ((od.filter fun r => r.hour = h).map (·.count)).sum)

/-- The hourly series detect_hourly_demand_anomalies builds before scoring, as
named columns. -/
def hourlyInputCols (od : List ODRow) : List DfCol :=
  [("hour", (hourlyDemand od).map fun p => .nat p.1),
   ("total_count", (hourlyDemand od).map fun p => .nat p.2)]

/-- Embeds detect_hourly_demand_anomalies (the frame written to
hourly_anomalies.csv): the hourly series, plus anomaly_score =
fit_predict of the total_count column, plus is_anomaly = (anomaly_score ==
-1). -/
def detectHourlyDemandAnomalies (fp : List (List ℚ) → List ℤ) (od : List ODRow) :
    List DfCol :=
  let hourly := hourlyDemand od
  let scores := fp (hourly.map fun p => [(p.2 : ℚ)])
  hourlyInputCols od ++
    [("anomaly_score", scores.map .int),
     ("is_anomaly", scores.map fun sc => .bool (sc = -1))]

/-- Rendering of grid_id used when the GPS table is modelled at column level:
the two scaled coordinates joined by an underscore (the source joins the
decimal strings of the two rounded floats; the pair determines the string). -/
def gridIdStr (la lo : ℤ) : String := toString la ++ "_" ++ toString lo

/-- The gps_speed_features columns as loaded by detect_gps_speed_anomalies. -/
def gpsInputCols (g : List GridSpeedRow) : List DfCol :=
  [("hour", g.map fun r => .nat r.hour),
   ("grid_id", g.map fun r => .str (gridIdStr r.gridLat r.gridLon)),
   ("avg_speed_kmph", g.map fun r => .rat r.avg_speed_kmph)]

/-- Feature matrix handed to the GPS IsolationForest:
['avg_speed_kmph', 'hour_of_day', 'day_of_week', 'is_weekend'] per row. -/
def gpsFeatureMatrix (g : List GridSpeedRow) : List (List ℚ) :=
  g.map fun r =>
    [r.avg_speed_kmph, (hourOfDay r.hour : ℚ), (dayOfWeek r.hour : ℚ),
     if dayOfWeek r.hour = 5 ∨ dayOfWeek r.hour = 6 then 1 else 0]

/-- Embeds detect_gps_speed_anomalies (the frame written to
gps_speed_anomalies.csv): the input columns, then the three time-based columns
the function derives from the hour, then anomaly_score = fit_predict of the
feature matrix and is_anomaly = (anomaly_score == -1). -/
def detectGpsSpeedAnomalies (fp : List (List ℚ) → List ℤ) (g : List GridSpeedRow) :
    List DfCol :=
  let scores := fp (gpsFeatureMatrix g)
  gpsInputCols g ++
    [("hour_of_day", g.map fun r => .nat (hourOfDay r.hour)),
     ("day_of_week", g.map fun r => .nat (dayOfWeek r.hour)),
     ("is_weekend", g.map fun r =>
        .nat (if dayOfWeek r.hour = 5 ∨ dayOfWeek r.hour = 6 then 1 else 0)),
     ("anomaly_score", scores.map .int),
     ("is_anomaly", scores.map fun sc => .bool (sc = -1))]

/-! ### Stage wrappers (error handling)

Each stage first tests whether its input artifact exists and, when it is
absent, reports the failure and returns without writing anything; the
embedding models a stage as a function from an optional input artifact to an
Except value: error with the reported message when the artifact is absent,
otherwise ok with the complete output artifact. -/

/-- Stage wrapper of build_od_flows. -/
def buildOdFlowsStage (a : Option (List CDRRow)) : Except String (List ODRow) :=
  match a with
  | none => .error "File not found: data/processed/cdr_merged.parquet"
  | some df => .ok (buildOdFlows df)

/-- Stage wrapper of build_gps_speed_features. -/
def buildGpsSpeedFeaturesStage (a : Option (List GPSRow)) :
    Except String (List GridSpeedRow) :=
  match a with
  | none => .error "File not found: data/processed/gps_merged.parquet"
  | some df => .ok (buildGpsSpeedFeatures df)

/-- Embeds create_od_prediction_features on a loaded od_flows table: append
the time features to every row, then the lag and rolling features for the
count column grouped by (origin_tower, dest_tower), with the default lags
[1, 24, 48, 168] and window sizes [3, 6, 24]. -/
noncomputable def createOdPredictionFeatures (od : List ODRow) :
    List ((ODRow × TimeFeats) × FeatVals) :=
  createLagAndRollingFeatures
    (fun a b => lex2 (a.1.data, a.2.data) (b.1.data, b.2.data))
    (fun p => (p.1.origin, p.1.dest)) (fun p => p.1.hour)
    (fun p => (p.1.count : ℚ)) [1, 24, 48, 168] [3, 6, 24]
    (od.map fun r => (r, createTimeFeatures r.hour))

/-- Stage wrapper of create_od_prediction_features. -/
noncomputable def createOdPredictionFeaturesStage (a : Option (List ODRow)) :
    Except String (List ((ODRow × TimeFeats) × FeatVals)) :=
  match a with
  | none => .error "File not found: data/processed/od_flows.parquet"
  | some od => .ok (createOdPredictionFeatures od)

/-- Stage wrapper of detect_hourly_demand_anomalies. -/
def detectHourlyDemandAnomaliesStage (fp : List (List ℚ) → List ℤ)
    (a : Option (List ODRow)) : Except String (List DfCol) :=
  match a with
  | none => .error "File not found: data/processed/od_flows.parquet"
  | some od => .ok (detectHourlyDemandAnomalies fp od)

/-! ### Helper lemmas -/

section LexLemmas

variable {α β γ : Type} [LinearOrder α] [LinearOrder β] [LinearOrder γ]

lemma lex2_iff (x y : α × β) :
    lex2 x y = true ↔ x.1 < y.1 ∨ (x.1 = y.1 ∧ x.2 ≤ y.2) := by
  unfold lex2
  split_ifs with h
  · simp [h, lt_irrefl]
  · simp [h]

lemma lex2_trans (x y z : α × β) (hxy : lex2 x y = true) (hyz : lex2 y z = true) :
    lex2 x z = true := by
  rw [lex2_iff] at hxy hyz ⊢
  rcases hxy with h1 | ⟨h1, h1b⟩ <;> rcases hyz with h2 | ⟨h2, h2b⟩
  · exact Or.inl (lt_trans h1 h2)
  · exact Or.inl (h2 ▸ h1)
  · exact Or.inl (h1 ▸ h2)
  · exact Or.inr ⟨h1.trans h2, le_trans h1b h2b⟩

lemma lex2_total (x y : α × β) : (lex2 x y || lex2 y x) = true := by
  simp only [Bool.or_eq_true, lex2_iff]
  rcases lt_trichotomy x.1 y.1 with h | h | h
  · exact Or.inl (Or.inl h)
  · rcases le_total x.2 y.2 with hb | hb
    · exact Or.inl (Or.inr ⟨h, hb⟩)
    · exact Or.inr (Or.inr ⟨h.symm, hb⟩)
  · exact Or.inr (Or.inl h)

lemma lex3_iff (x y : α × β × γ) :
    lex3 x y = true ↔
      x.1 < y.1 ∨ (x.1 = y.1 ∧ (x.2.1 < y.2.1 ∨ (x.2.1 = y.2.1 ∧ x.2.2 ≤ y.2.2))) := by
  unfold lex3
  split_ifs with h
  · simp [h, lt_irrefl, lex2_iff]
  · simp [h]

lemma lex3_trans (x y z : α × β × γ) (hxy : lex3 x y = true) (hyz : lex3 y z = true) :
    lex3 x z = true := by
  rw [lex3_iff] at hxy hyz ⊢
  rcases hxy with h1 | ⟨h1, hin1⟩ <;> rcases hyz with h2 | ⟨h2, hin2⟩
  · exact Or.inl (lt_trans h1 h2)
  · exact Or.inl (h2 ▸ h1)
  · exact Or.inl (h1 ▸ h2)
  · refine Or.inr ⟨h1.trans h2, ?_⟩
    rcases hin1 with g1 | ⟨g1, g1b⟩ <;> rcases hin2 with g2 | ⟨g2, g2b⟩
    · exact Or.inl (lt_trans g1 g2)
    · exact Or.inl (g2 ▸ g1)
    · exact Or.inl (g1 ▸ g2)
    · exact Or.inr ⟨g1.trans g2, le_trans g1b g2b⟩

lemma lex3_total (x y : α × β × γ) : (lex3 x y || lex3 y x) = true := by
  unfold lex3
  rcases lt_trichotomy x.1 y.1 with h | h | h
  · simp [ne_of_lt h, h]
  · simp [h, lex2_total]
  · simp [ne_of_gt h, ne_of_lt h, h, not_lt_of_gt h]

end LexLemmas

/-- Nodup of a sorted dedup list: the key list of an embedded groupby. -/
lemma nodup_sort_dedup {α : Type} [DecidableEq α] (l : List α)
    (r : α → α → Prop) [DecidableRel r] : (l.dedup.insertionSort r).Nodup :=
  (List.perm_insertionSort r l.dedup).symm.nodup (l.nodup_dedup)

/-- Membership in a sorted dedup list. -/
lemma mem_sort_dedup {α : Type} [DecidableEq α] {l : List α}
    {r : α → α → Prop} [inst : DecidableRel r] {a : α}
    (h : a ∈ l.dedup.insertionSort r) : a ∈ l :=
  List.mem_dedup.mp ((List.perm_insertionSort r l.dedup).mem_iff.mp h)

/-- Rows carried through the per-user shift are rows of the input frame. -/
lemma addOrigins_fst_mem :
    ∀ (l : List CDRRow) (seen : List (String × String))
      (p : CDRRow × Option String), p ∈ addOrigins seen l → p.1 ∈ l := by
  intro l
  induction l with
  | nil => intro seen p h; simp [addOrigins] at h
  | cons r rs ih =>
      intro seen p h
      simp only [addOrigins, List.mem_cons] at h
      rcases h with h | h
      · subst h; exact List.mem_cons_self _ _
      · exact List.mem_cons_of_mem _ (ih _ _ h)

/-- Restricting the per-user shift output to one user yields exactly the
consecutive-pairing of that user's rows, starting from the accumulator's
entry for that user. -/
lemma addOrigins_filter_user (u : String) :
    ∀ (l : List CDRRow) (seen : List (String × String)),
      ((addOrigins seen l).filter fun p => p.1.user_id = u) =
        chainPrev (seen.lookup u) (l.filter fun r => r.user_id = u) := by
  intro l
  induction l with
  | nil => intro seen; simp [addOrigins, chainPrev]
  | cons r rs ih =>
      intro seen
      by_cases h : r.user_id = u
      · subst h
        simp [addOrigins, List.filter_cons, ih, List.lookup, chainPrev]
      · have hbeq : (u == r.user_id) = false := by
          simp [BEq.beq]
          exact fun he => h he.symm
        simp [addOrigins, List.filter_cons, h, ih, List.lookup, hbeq]

/-- In a consecutive pairing started with a defined previous value, every
pair carries a defined origin. -/
lemma chainPrev_isSome_length :
    ∀ (l : List CDRRow) (x : String),
      ((chainPrev (some x) l).filter fun p => p.2.isSome).length = l.length := by
  intro l
  induction l with
  | nil => intro x; simp [chainPrev]
  | cons r rs ih => intro x; simp [chainPrev, List.filter_cons, ih]

section LagRollingLemmas

variable {R K : Type} [DecidableEq K]

/-- Cell j of a groupby transform: the component of the per-group result at
the row's within-group position. -/
lemma groupTransform_getElem (f : List ℚ → List (Option ℚ)) (key : R → K)
    (target : R → ℚ) (s : List R) (j : Nat) (hj : j < s.length) :
    (groupTransform f key target s)[j]? =
      some (((f (groupSeries key target s (key s[j])))[groupPos key s j (key s[j])]?).join) := by
  unfold groupTransform
  rw [List.getElem?_map, List.getElem?_range hj]
  simp [List.getElem?_eq_getElem hj]

/-- Splitting a filtered length at a position. -/
lemma length_filter_split {α : Type} (p : α → Bool) (l : List α) (n : Nat) :
    (l.filter p).length = ((l.take n).filter p).length +
      ((l.drop n).filter p).length := by
  conv_lhs => rw [← List.take_append_drop n l]
  rw [List.filter_append, List.length_append]

/-- A row's within-group position is a valid index of its group's series. -/
lemma groupPos_lt_length (key : R → K) (target : R → ℚ) (s : List R) (j : Nat)
    (hj : j < s.length) :
    groupPos key s j (key s[j]) < (groupSeries key target s (key s[j])).length := by
  have hsplit := length_filter_split (fun x => decide (key x = key s[j])) s j
  have hdrop : s.drop j = s[j] :: s.drop (j + 1) :=
    (List.getElem_cons_drop s j hj).symm
  have hsub : 0 < ((s.drop j).filter fun x => key x = key s[j]).length := by
    rw [hdrop, List.filter_cons]
    simp
  rw [groupSeries, List.length_map]
  unfold groupPos
  omega

/-- Cell i of an embedded Series.shift(L) when at least L prior values
exist: the value L positions back. -/
lemma seriesShift_getElem_ge (L : Nat) (xs : List ℚ) (i : Nat)
    (hi : i < xs.length) (hL : L ≤ i) :
    (seriesShift L xs)[i]? = some (xs[i - L]?) := by
  unfold seriesShift
  rw [List.getElem?_take, if_pos hi, List.getElem?_append]
  rw [if_neg (by simp; omega)]
  rw [List.length_replicate, List.getElem?_map]
  have hib : i - L < xs.length := by omega
  rw [List.getElem?_eq_getElem hib]
  rfl

/-- Cell i of an embedded Series.shift(L) when fewer than L prior values
exist: undefined. -/
lemma seriesShift_getElem_lt (L : Nat) (xs : List ℚ) (i : Nat)
    (hi : i < xs.length) (hL : i < L) :
    (seriesShift L xs)[i]? = some none := by
  unfold seriesShift
  rw [List.getElem?_take, if_pos hi, List.getElem?_append]
  rw [if_pos (by simpa using hL), List.getElem?_replicate, if_pos hL]

/-- Length of the rolling window at a frame position. -/
lemma rollWin_length (W : Nat) (xs : List ℚ) (i : Nat) (hi : i < xs.length) :
    (rollWin W xs i).length = min W (i + 1) := by
  simp only [rollWin, List.length_drop, List.length_take]
  omega

/-- The rolling window is the trailing window restored to order. -/
lemma rollWin_eq_trailingWin (W : Nat) (xs : List ℚ) (i : Nat)
    (hi : i < xs.length) : rollWin W xs i = trailingWin W xs i := by
  apply List.reverse_injective
  rw [rollWin, trailingWin, List.reverse_reverse, List.reverse_drop]
  rw [List.take_eq_take]
  simp only [List.length_take, List.length_reverse]
  omega

/-- Cell i of the embedded rolling mean. -/
lemma rollingMeanSeries_getElem (W : Nat) (xs : List ℚ) (i : Nat)
    (hi : i < xs.length) (hW : 1 ≤ W) :
    (rollingMeanSeries W xs)[i]? =
      some (some ((rollWin W xs i).sum / ((rollWin W xs i).length : ℚ))) := by
  unfold rollingMeanSeries
  rw [List.getElem?_map, List.getElem?_range hi]
  have hlen : (rollWin W xs i).length = min W (i + 1) := rollWin_length W xs i hi
  have h1 : 1 ≤ (rollWin W xs i).length := by omega
  simp [h1]

/-- Cell 0 of the embedded rolling std: a single-observation window, hence
undefined (ddof = 1). -/
lemma rollingStdSeries_getElem_zero (W : Nat) (xs : List ℚ)
    (h0 : 0 < xs.length) (hW : 1 ≤ W) :
    (rollingStdSeries W xs)[0]? = some none := by
  unfold rollingStdSeries
  rw [List.getElem?_map, List.getElem?_range h0]
  have hlen : (rollWin W xs 0).length = min W 1 := rollWin_length W xs 0 h0
  have h2 : ¬ 2 ≤ (rollWin W xs 0).length := by omega
  simp [h2]

end LagRollingLemmas

/-! ### Claim theorems -/

/-- C6: when the required upstream input artifact is absent, each stage fails
with the file-not-found error reported to the caller and emits no output
artifact, and on a present input each stage succeeds with its one complete
output artifact.  The embedding has no retry construct, matching the single
existence check and early return of each source function. -/
theorem c6_missing_input_fatal_no_output :
    buildOdFlowsStage none =
      Except.error "File not found: data/processed/cdr_merged.parquet" ∧
    (∀ df, buildOdFlowsStage (some df) = Except.ok (buildOdFlows df)) ∧
    buildGpsSpeedFeaturesStage none =
      Except.error "File not found: data/processed/gps_merged.parquet" ∧
    (∀ df, buildGpsSpeedFeaturesStage (some df) =
      Except.ok (buildGpsSpeedFeatures df)) ∧
    createOdPredictionFeaturesStage none =
      Except.error "File not found: data/processed/od_flows.parquet" ∧
    (∀ od, createOdPredictionFeaturesStage (some od) =
      Except.ok (createOdPredictionFeatures od)) ∧
    (∀ fp, detectHourlyDemandAnomaliesStage fp none =
      Except.error "File not found: data/processed/od_flows.parquet") ∧
    (∀ fp od, detectHourlyDemandAnomaliesStage fp (some od) =
      Except.ok (detectHourlyDemandAnomalies fp od)) :=
  ⟨rfl, fun _ => rfl, rfl, fun _ => rfl, rfl, fun _ => rfl, fun _ => rfl,
   fun _ _ => rfl⟩

/-- C3: both aggregated outputs carry no duplicate key: the (hour, origin,
dest) triples of the OD-flow table and the (hour, grid cell) keys of the
GPS-speed table are lists without duplicates, for every input. -/
theorem c3_aggregated_keys_unique (dfc : List CDRRow) (dfg : List GPSRow) :
    ((buildOdFlows dfc).map fun r => (r.hour, r.origin, r.dest)).Nodup ∧
    ((buildGpsSpeedFeatures dfg).map fun r => (r.hour, r.gridLat, r.gridLon)).Nodup := by
  constructor
  · simp only [buildOdFlows, List.map_map]
    refine List.Nodup.map ?_ (nodup_sort_dedup _ _)
    intro a b h
    cases a
    cases b
    simpa using h
  · simp only [buildGpsSpeedFeatures, List.map_map]
    refine List.Nodup.map ?_ (nodup_sort_dedup _ _)
    intro a b h
    cases a
    cases b
    simpa using h

/-- C7 counterexample: the claim says the Anomaly Scorer output extends the
input rows with exactly the two columns anomaly_score and is_anomaly, but the
GPS detector also appends hour_of_day, day_of_week and is_weekend: at a
one-row input its output column names are not the input names followed by the
two anomaly columns. -/
theorem c7_counterexample_extra_columns :
    (detectGpsSpeedAnomalies (fun X => X.map fun _ => (1 : ℤ))
        [⟨0, 0, 0, 10⟩]).map Prod.fst ≠
      (gpsInputCols [⟨0, 0, 0, 10⟩]).map Prod.fst ++
        ["anomaly_score", "is_anomaly"] := by
  decide

/-- C7 amended: the hourly detector appends exactly anomaly_score and
is_anomaly to its aggregated input series; the GPS detector appends
hour_of_day, day_of_week and is_weekend as well; in both, anomaly_score holds
the fit_predict labels and is_anomaly is the boolean (anomaly_score == -1),
for every model function and input. -/
theorem c7_amended_output_columns (fp fph : List (List ℚ) → List ℤ)
    (od : List ODRow) (g : List GridSpeedRow) :
    (detectHourlyDemandAnomalies fph od).map Prod.fst =
      (hourlyInputCols od).map Prod.fst ++ ["anomaly_score", "is_anomaly"] ∧
    (detectGpsSpeedAnomalies fp g).map Prod.fst =
      (gpsInputCols g).map Prod.fst ++
        ["hour_of_day", "day_of_week", "is_weekend", "anomaly_score", "is_anomaly"] ∧
    (detectHourlyDemandAnomalies fph od).lookup "anomaly_score" =
      some ((fph ((hourlyDemand od).map fun p => [(p.2 : ℚ)])).map .int) ∧
    (detectHourlyDemandAnomalies fph od).lookup "is_anomaly" =
      some ((fph ((hourlyDemand od).map fun p => [(p.2 : ℚ)])).map
        fun sc => CellVal.bool (sc = -1)) ∧
    (detectGpsSpeedAnomalies fp g).lookup "anomaly_score" =
      some ((fp (gpsFeatureMatrix g)).map .int) ∧
    (detectGpsSpeedAnomalies fp g).lookup "is_anomaly" =
      some ((fp (gpsFeatureMatrix g)).map fun sc => CellVal.bool (sc = -1)) :=
  ⟨rfl, rfl, rfl, rfl, rfl, rfl⟩

/-- C1 at the failing input (the fill policy bug): three rows in two groups,
group 0 with a single row of target 5 and group 1 with two rows of targets 7
and 9, with one lag feature of distance 1.  The raw lag column is
[undefined, undefined, 7]; the spec requires group 0 (entirely undefined) to
be filled with the default 0, yet the source's frame-wide bfill fills it with
7 taken from group 1, so every filled lag cell ends up 7. -/
theorem c1_fill_crosses_groups_at_failing_input :
    (createLagAndRollingFeatures (fun a b : Nat => decide (a ≤ b)) Prod.fst
        (fun p => p.2.1) (fun p => p.2.2) [1] []
        [((0 : Nat), (0 : Nat), (5 : ℚ)), (1, 0, 7), (1, 1, 9)]).map
      (fun p => p.2.lagF) = [[7], [7], [7]] := by
  decide

/-- C8: create_time_features appends exactly the ten derived columns of the
TimeFeats structure, each a pure function of the row's timestamp; hour_of_day
lies in [0,23] and day_of_week in [0,6] (Monday = 0 by the epoch-anchored
weekday formula); is_weekend is set exactly when day_of_week is at least 5;
the four cyclical encodings are the sine and cosine of 2*pi*hour/24 and
2*pi*dayofweek/7 and each lies in [-1, 1]. -/
theorem c8_time_feature_columns (m : Nat) :
    (createTimeFeatures m).hour_of_day = hourOfDay m ∧ hourOfDay m ≤ 23 ∧
    (createTimeFeatures m).day_of_week = dayOfWeek m ∧ dayOfWeek m ≤ 6 ∧
    (createTimeFeatures m).day_of_year = dayOfYear m ∧
    (createTimeFeatures m).month = monthOf m ∧
    (createTimeFeatures m).week_of_year = weekOfYear m ∧
    ((createTimeFeatures m).is_weekend = 1 ↔ 5 ≤ dayOfWeek m) ∧
    (createTimeFeatures m).hour_sin = Real.sin (2 * Real.pi * (hourOfDay m : ℝ) / 24) ∧
    (createTimeFeatures m).hour_cos = Real.cos (2 * Real.pi * (hourOfDay m : ℝ) / 24) ∧
    (createTimeFeatures m).dayofweek_sin = Real.sin (2 * Real.pi * (dayOfWeek m : ℝ) / 7) ∧
    (createTimeFeatures m).dayofweek_cos = Real.cos (2 * Real.pi * (dayOfWeek m : ℝ) / 7) ∧
    |(createTimeFeatures m).hour_sin| ≤ 1 ∧ |(createTimeFeatures m).hour_cos| ≤ 1 ∧
    |(createTimeFeatures m).dayofweek_sin| ≤ 1 ∧
    |(createTimeFeatures m).dayofweek_cos| ≤ 1 := by
  refine ⟨rfl, ?_, rfl, ?_, rfl, rfl, rfl, ?_, rfl, rfl, rfl, rfl, ?_, ?_, ?_, ?_⟩
  · unfold hourOfDay; omega
  · unfold dayOfWeek; omega
  · by_cases h : 5 ≤ dayOfWeek m <;> simp [createTimeFeatures, h]
  · exact abs_le.mpr ⟨Real.neg_one_le_sin _, Real.sin_le_one _⟩
  · exact abs_le.mpr ⟨Real.neg_one_le_cos _, Real.cos_le_one _⟩
  · exact abs_le.mpr ⟨Real.neg_one_le_sin _, Real.sin_le_one _⟩
  · exact abs_le.mpr ⟨Real.neg_one_le_cos _, Real.cos_le_one _⟩

/-- C10: in both aggregators every output row's hour bucket is the hour
bucket of some input event's timestamp, and that bucket is obtained by first
adding the Asia/Kolkata offset of 330 minutes and then flooring to the hour;
because of the half-hour offset this differs from flooring in UTC and then
converting, so the buckets are local-time hours, not UTC hours. -/
theorem c10_hour_buckets_are_local :
    (∀ (df : List CDRRow) (o : ODRow), o ∈ buildOdFlows df →
      ∃ r ∈ df, o.hour = hourBucket r.timestamp) ∧
    (∀ (df : List GPSRow) (g : GridSpeedRow), g ∈ buildGpsSpeedFeatures df →
      ∃ r ∈ df, g.hour = hourBucket r.timestamp) ∧
    (∀ t, hourBucket t = (t + 330) / 60 * 60) ∧
    (∃ t, hourBucket t ≠ t / 60 * 60 + 330) := by
  refine ⟨?_, ?_, fun t => rfl, ⟨0, by decide⟩⟩
  · intro df o ho
    simp only [buildOdFlows, List.mem_map] at ho
    obtain ⟨k, hk, rfl⟩ := ho
    have hk2 : k ∈ flowRecords df := mem_sort_dedup hk
    simp only [flowRecords, List.mem_filterMap] at hk2
    obtain ⟨p, hp, hmap⟩ := hk2
    obtain ⟨orig, ho2, hkeq⟩ := Option.map_eq_some'.mp hmap
    have h1 : p.1 ∈ sortCDR df := addOrigins_fst_mem _ _ _ hp
    have h2 : p.1 ∈ df :=
      (List.perm_insertionSort _ df).mem_iff.mp h1
    exact ⟨p.1, h2, by rw [← hkeq]⟩
  · intro df g hg
    simp only [buildGpsSpeedFeatures, List.mem_map] at hg
    obtain ⟨k, hk, rfl⟩ := hg
    have hk2 : k ∈ df.map gpsPointKey := mem_sort_dedup hk
    obtain ⟨r, hr, rfl⟩ := List.mem_map.mp hk2
    exact ⟨r, hr, rfl⟩

/-- Witness for C10 at a concrete input: the single flow row of a two-event
user carries the local hour bucket of the second event. -/
theorem c10_witness :
    ((⟨360, "A", "B", 1⟩ : ODRow) ∈
      buildOdFlows [⟨"U1", "A", 0⟩, ⟨"U1", "B", 60⟩]) ∧
    ∃ r ∈ [(⟨"U1", "A", 0⟩ : CDRRow), ⟨"U1", "B", 60⟩],
      (⟨360, "A", "B", 1⟩ : ODRow).hour = hourBucket r.timestamp :=
  ⟨by decide, c10_hour_buckets_are_local.1 _ _ (by decide)⟩

/-- C2: in build_od_flows, the rows of one entity, taken in the sorted
frame, are paired with exactly the towers of their immediately preceding
events: the shift output restricted to a user is the consecutive pairing of
that user's chronologically sorted events with the first event paired with
none; hence after dropna the entity contributes exactly N - 1 flow records
for N events, and the entity's event list is indeed time-sorted. -/
theorem c2_entity_contributes_n_minus_one_flows (df : List CDRRow) (u : String) :
    ((addOrigins [] (sortCDR df)).filter fun p => p.1.user_id = u) =
      chainPrev none ((sortCDR df).filter fun r => r.user_id = u) ∧
    (((addOrigins [] (sortCDR df)).filter fun p => p.1.user_id = u).filter
        fun p => p.2.isSome).length =
      ((sortCDR df).filter fun r => r.user_id = u).length - 1 ∧
    ((sortCDR df).filter fun r => r.user_id = u).Pairwise
      fun a b => a.timestamp ≤ b.timestamp := by
  have h1 := addOrigins_filter_user u (sortCDR df) []
  refine ⟨h1, ?_, ?_⟩
  · rw [h1]
    cases hevs : (sortCDR df).filter fun r => r.user_id = u with
    | nil => simp [chainPrev]
    | cons r rs =>
        simp [chainPrev, List.filter_cons, chainPrev_isSome_length]
  · haveI : IsTrans CDRRow fun a b => cdrLE a b = true :=
      ⟨fun _ _ _ => lex2_trans _ _ _⟩
    haveI : IsTotal CDRRow fun a b => cdrLE a b = true :=
      ⟨fun a b => Bool.or_eq_true _ _ |>.mp (lex2_total _ _)⟩
    have hsorted : (sortCDR df).Pairwise fun a b => cdrLE a b = true :=
      List.sorted_insertionSort _ df
    refine (hsorted.filter _).imp_of_mem ?_
    intro a b ha hb hle
    have hau : a.user_id = u := of_decide_eq_true (List.mem_filter.mp ha).2
    have hbu : b.user_id = u := of_decide_eq_true (List.mem_filter.mp hb).2
    rw [cdrLE, lex2_iff] at hle
    rcases hle with h | ⟨_, h⟩
    · rw [hau, hbu] at h
      exact absurd h (lt_irrefl _)
    · exact h

/-- C9 counterexample: the OD-flow output is not sorted key-then-time.  For
two users whose hops happen in opposite hour order to the key order, the
output rows come out hour-major: the (C, D) flow of the early hour precedes
the (A, B) flow of the late hour, violating the claimed key-first order. -/
theorem c9_counterexample_not_key_major :
    ¬ specOrderedKeyThenTimeOD (buildOdFlows
      [⟨"u2", "A", 1000⟩, ⟨"u1", "C", 0⟩, ⟨"u2", "B", 1010⟩, ⟨"u1", "D", 10⟩]) := by
  intro h
  have hout : buildOdFlows
      [⟨"u2", "A", 1000⟩, ⟨"u1", "C", 0⟩, ⟨"u2", "B", 1010⟩, ⟨"u1", "D", 10⟩] =
      [⟨300, "C", "D", 1⟩, ⟨1320, "A", "B", 1⟩] := by decide
  rw [specOrderedKeyThenTimeOD, hout] at h
  have hrel := (List.pairwise_cons.mp h).1 _ (List.mem_cons_self _ _)
  rcases hrel with hlt | ⟨heq, _⟩
  · rw [String.lt_iff_toList_lt] at hlt
    revert hlt
    decide
  · exact absurd heq (by decide)

/-- C9 amended: both aggregated outputs are deterministically ordered, but
time-major: sorted by the hour bucket first and by the group key only within
equal hours (the groupby key columns are [hour, origin, dest] and
[hour, grid_id], so pandas sorts hour-first). -/
theorem c9_amended_time_major_ordering (dfc : List CDRRow) (dfg : List GPSRow) :
    (buildOdFlows dfc).Pairwise (fun a b =>
      a.hour < b.hour ∨ (a.hour = b.hour ∧ (a.origin < b.origin ∨
        (a.origin = b.origin ∧ a.dest ≤ b.dest)))) ∧
    (buildGpsSpeedFeatures dfg).Pairwise (fun a b =>
      a.hour < b.hour ∨ (a.hour = b.hour ∧ (a.gridLat < b.gridLat ∨
        (a.gridLat = b.gridLat ∧ a.gridLon ≤ b.gridLon)))) := by
  constructor
  · haveI : IsTrans FlowRec fun a b => flowKeyLE a b = true :=
      ⟨fun _ _ _ => lex3_trans _ _ _⟩
    haveI : IsTotal FlowRec fun a b => flowKeyLE a b = true :=
      ⟨fun a b => Bool.or_eq_true _ _ |>.mp (lex3_total _ _)⟩
    have hs := List.sorted_insertionSort
      (fun a b => flowKeyLE a b = true) (flowRecords dfc).dedup
    simp only [buildOdFlows]
    refine List.Pairwise.map _ ?_ hs
    intro a b hab
    rw [flowKeyLE, lex3_iff] at hab
    rcases hab with h | ⟨h1, h | ⟨h2, h3⟩⟩
    · exact Or.inl h
    · exact Or.inr ⟨h1, Or.inl (String.lt_iff_toList_lt.mpr h)⟩
    · exact Or.inr ⟨h1, Or.inr ⟨String.toList_inj.mp h2,
        String.le_iff_toList_le.mpr h3⟩⟩
  · haveI : IsTrans GpsKey fun a b => gpsKeyLE a b = true :=
      ⟨fun _ _ _ => lex3_trans _ _ _⟩
    haveI : IsTotal GpsKey fun a b => gpsKeyLE a b = true :=
      ⟨fun a b => Bool.or_eq_true _ _ |>.mp (lex3_total _ _)⟩
    have hs := List.sorted_insertionSort
      (fun a b => gpsKeyLE a b = true) (dfg.map gpsPointKey).dedup
    simp only [buildGpsSpeedFeatures]
    refine List.Pairwise.map _ ?_ hs
    intro a b hab
    rw [gpsKeyLE, lex3_iff] at hab
    exact hab

/-- C4: in create_lag_and_rolling_features, for every requested lag L and
every row at position i within its group (the frame s being sorted by group
and time, so that each group's series is time-sorted), the lag-L column
equals the target value at position i - L of that group's series when at
least L prior observations exist, and is undefined before fill-in
otherwise. -/
theorem c4_lag_within_group {R K : Type} [DecidableEq K] (key : R → K)
    (time : R → Nat) (target : R → ℚ) (L : Nat) (s : List R) (j : Nat)
    (hj : j < s.length)
    (hs : s.Pairwise fun a b => key a = key b → time a ≤ time b) :
    groupPos key s j (key s[j]) < (groupSeries key target s (key s[j])).length ∧
    ((s.filter fun x => key x = key s[j]).Pairwise fun a b =>
      time a ≤ time b) ∧
    (L ≤ groupPos key s j (key s[j]) →
      (lagColumn key target L s)[j]? =
        some ((groupSeries key target s
          (key s[j]))[groupPos key s j (key s[j]) - L]?)) ∧
    (groupPos key s j (key s[j]) < L →
      (lagColumn key target L s)[j]? = some none) := by
  have hpos := groupPos_lt_length key target s j hj
  refine ⟨hpos, ?_, ?_, ?_⟩
  · refine (hs.filter _).imp_of_mem ?_
    intro a b ha hb himp
    have hak : key a = key s[j] := of_decide_eq_true (List.mem_filter.mp ha).2
    have hbk : key b = key s[j] := of_decide_eq_true (List.mem_filter.mp hb).2
    exact himp (hak.trans hbk.symm)
  · intro hL
    rw [lagColumn, groupTransform_getElem _ _ _ _ _ hj,
      seriesShift_getElem_ge L _ _ hpos hL]
    rfl
  · intro hL
    rw [lagColumn, groupTransform_getElem _ _ _ _ _ hj,
      seriesShift_getElem_lt L _ _ hpos hL]
    rfl

/-- Witness for C4 at a concrete frame: two rows of one group; at the second
row the lag-1 column holds the first row's target 5, and at the first row
(fewer than one prior observation) the raw lag cell is undefined. -/
theorem c4_witness :
    (lagColumn (R := Nat × Nat × ℚ) (K := Nat) Prod.fst (fun p => p.2.2) 1
        [(0, 0, 5), (0, 1, 6)])[1]? = some (some 5) ∧
    (lagColumn (R := Nat × Nat × ℚ) (K := Nat) Prod.fst (fun p => p.2.2) 1
        [(0, 0, 5), (0, 1, 6)])[0]? = some none := by
  have h1 := (c4_lag_within_group (R := Nat × Nat × ℚ) (K := Nat) Prod.fst
    (fun p => p.2.1) (fun p => p.2.2) 1 [(0, 0, 5), (0, 1, 6)] 1 (by decide)
    (by simp)).2.2.1 (by decide)
  have h2 := (c4_lag_within_group (R := Nat × Nat × ℚ) (K := Nat) Prod.fst
    (fun p => p.2.1) (fun p => p.2.2) 1 [(0, 0, 5), (0, 1, 6)] 0 (by decide)
    (by simp)).2.2.2 (by decide)
  exact ⟨h1.trans (by decide), h2⟩

/-- C5: in create_lag_and_rolling_features, for every requested window size W
(at least 1) and every row at position i within its group, the rolling-mean-W
column equals the arithmetic mean of the trailing min(W, i+1) target values
ending at and including position i of the group's series, and the
rolling-std-W column at the group's first row (a single-point window) is
undefined before fill-in. -/
theorem c5_rolling_within_group {R K : Type} [DecidableEq K] (key : R → K)
    (target : R → ℚ) (W : Nat) (s : List R) (j : Nat) (hj : j < s.length)
    (hW : 1 ≤ W) :
    (trailingWin W (groupSeries key target s (key s[j]))
        (groupPos key s j (key s[j]))).length =
      min W (groupPos key s j (key s[j]) + 1) ∧
    (rollMeanColumn key target W s)[j]? =
      some (some ((trailingWin W (groupSeries key target s (key s[j]))
          (groupPos key s j (key s[j]))).sum /
        ((trailingWin W (groupSeries key target s (key s[j]))
          (groupPos key s j (key s[j]))).length : ℚ))) ∧
    (groupPos key s j (key s[j]) = 0 →
      (rollStdColumn key target W s)[j]? = some none) := by
  have hpos := groupPos_lt_length key target s j hj
  have hwin := rollWin_eq_trailingWin W (groupSeries key target s (key s[j]))
    (groupPos key s j (key s[j])) hpos
  refine ⟨?_, ?_, ?_⟩
  · rw [← hwin, rollWin_length _ _ _ hpos]
  · rw [rollMeanColumn, groupTransform_getElem _ _ _ _ _ hj,
      rollingMeanSeries_getElem _ _ _ hpos hW, hwin]
    rfl
  · intro h0
    rw [rollStdColumn, groupTransform_getElem _ _ _ _ _ hj, h0,
      rollingStdSeries_getElem_zero _ _ (by omega) hW]
    rfl

/-- Witness for C5 at a concrete frame: at the first row of a group the
trailing window has the single element 5 (length min 3 1 = 1), the rolling
mean is 5, and the rolling std cell is undefined. -/
theorem c5_witness :
    (rollMeanColumn (R := Nat × ℚ) (K := Nat) Prod.fst Prod.snd 3
        [(0, 5), (0, 6)])[0]? = some (some 5) ∧
    (rollStdColumn (R := Nat × ℚ) (K := Nat) Prod.fst Prod.snd 3
        [(0, 5), (0, 6)])[0]? = some none := by
  have h := c5_rolling_within_group (R := Nat × ℚ) (K := Nat) Prod.fst
    Prod.snd 3 [(0, 5), (0, 6)] 0 (by decide) (by decide)
  refine ⟨h.2.1.trans ?_, h.2.2 (by decide)⟩
  norm_num [trailingWin, groupSeries, groupPos]

end UMB
